import Mathlib

/-!
Verification of the client-side orchestration logic of the tether-front-start
admin dashboard: upload submission validation, upload-status polling,
upload-detail initialization, VOP (Verification of Payee) polling and gating,
billing-stats polling, the HTTP client's 401 interception, query-string
building, and per-row display-status computation.

Each definition is a shallow embedding of the corresponding TypeScript
function; asynchronous timer loops are modelled as fuel-bounded recursions
over a stream of backend responses, and effects (network requests, toasts,
callbacks) are modelled as explicit event lists.
-/

namespace Tether

/-! ## String helpers (JS semantics) -/

/-- Boolean infix test on character lists: `listInfix sub l` is true iff
`sub` occurs contiguously inside `l`. Models JS `String.prototype.includes`. -/
def listInfix (sub : List Char) : List Char → Bool
  | [] => sub.isEmpty
  | c :: rest => sub.isPrefixOf (c :: rest) || listInfix sub rest

/-- `containsSubstring s sub` models JS `s.includes(sub)`. -/
def containsSubstring (s sub : String) : Bool :=
  listInfix sub.toList s.toList

/-- Model of JS `String.prototype.toLowerCase` (character-wise lowering;
the statuses and error keywords involved are ASCII). -/
def jsToLower (s : String) : String :=
  String.mk (s.toList.map Char.toLower)

/-- Model of JS `String.prototype.endsWith`. -/
def jsEndsWith (s suffix : String) : Bool :=
  suffix.toList.isSuffixOf s.toList

/-! ## Query-string building (`ApiClient.buildQuery`) -/

/-- A JavaScript value as it can appear in a filters object passed to
`buildQuery`: `undefined`, `null`, a string, an integer number, or a boolean. -/
inductive JVal
  | undef
  | jnull
  | jstr (s : String)
  | jnum (n : Int)
  | jbool (b : Bool)
deriving DecidableEq

/-- The filter predicate of `buildQuery`:
`value !== undefined && value !== null && value !== ''`. -/
def jvalKeep : JVal → Bool
  | .undef => false
  | .jnull => false
  | .jstr s => !(s == "")
  | .jnum _ => true
  | .jbool _ => true

/-- JS `String(value)` on the values `buildQuery` can see. -/
def jvalString : JVal → String
  | .undef => "undefined"
  | .jnull => "null"
  | .jstr s => s
  | .jnum n => toString n
  | .jbool b => if b then "true" else "false"

/-- Hex digit character (uppercase), for percent-encoding. -/
def hexDigitChar (n : Nat) : Char :=
  if n < 10 then Char.ofNat (48 + n) else Char.ofNat (55 + n)

/-- UTF-8 byte sequence of a character (by code point). -/
def utf8Bytes (c : Char) : List Nat :=
  let n := c.toNat
  if n < 128 then [n]
  else if n < 2048 then [192 ||| (n >>> 6), 128 ||| (n &&& 63)]
  else if n < 65536 then
    [224 ||| (n >>> 12), 128 ||| ((n >>> 6) &&& 63), 128 ||| (n &&& 63)]
  else
    [240 ||| (n >>> 18), 128 ||| ((n >>> 12) &&& 63),
     128 ||| ((n >>> 6) &&& 63), 128 ||| (n &&& 63)]

/-- Percent-encoding of one byte, e.g. `37 ↦ "%25"`. -/
def percentByte (b : Nat) : String :=
  String.mk ['%', hexDigitChar (b / 16), hexDigitChar (b % 16)]

/-- Characters left untouched by JS `encodeURIComponent`:
`A–Z a–z 0–9 - _ . ! ~ * ' ( )`. -/
def uriUnreservedChar (c : Char) : Bool :=
  ('A' ≤ c && c ≤ 'Z') || ('a' ≤ c && c ≤ 'z') || ('0' ≤ c && c ≤ '9') ||
  c == '-' || c == '_' || c == '.' || c == '!' || c == '~' || c == '*' ||
  c == '\'' || c == '(' || c == ')'

/-- Model of JS `encodeURIComponent`: unreserved characters pass through,
every other character is replaced by the percent-encoding of its UTF-8 bytes. -/
def encodeURIComponent (s : String) : String :=
  String.join (s.toList.map (fun c =>
    if uriUnreservedChar c then String.singleton c
    else String.join ((utf8Bytes c).map percentByte)))

/-- `ApiClient.buildQuery` (src/src/lib/api.ts): drop entries whose value is
`undefined`, `null` or `''`; if none remain return `""`, otherwise return
`"?"` followed by `key=encodeURIComponent(String(value))` pairs joined
with `"&"`. `none` models the absent `params` argument. -/
def buildQuery (params : Option (List (String × JVal))) : String :=
  match params with
  | none => ""
  | some ps =>
    let filtered := (ps.filter (fun kv => jvalKeep kv.2)).map
      (fun kv => kv.1 ++ "=" ++ encodeURIComponent (jvalString kv.2))
    if filtered.length ≠ 0 then "?" ++ String.intercalate "&" filtered else ""

/-! ## The HTTP client's 401 interception (`ApiClient.request`, `ApiClient.uploadFile`) -/

/-- Default API base URL from src/src/lib/api.ts. -/
def apiBaseUrl : String := "http://localhost:8000/api"

/-- Mutable client state: the stored bearer token. -/
structure ClientState where
  token : Option String
deriving DecidableEq

/-- JS `response.ok`: status in 200–299. -/
def respOk (status : Nat) : Bool :=
  decide (200 ≤ status) && decide (status ≤ 299)

/-- JS `error.message || dflt`: the parsed error message, falling back to the
default when the body had no message or an empty one (JS falsiness). -/
def errMessageOrDefault (errMsg : Option String) (dflt : String) : String :=
  match errMsg with
  | some m => if m == "" then dflt else m
  | none => dflt

/-- How a single `request`/`uploadFile` call terminates. -/
inductive RequestOutcome
  | thrownUnauthorized
  | thrownApi (msg : String)
  | success
deriving DecidableEq

/-- Observable effects of one HTTP call: the token afterwards, whether a hard
redirect to `/login` happened, how the call terminated, how many `fetch`
requests were sent, and the URL fetched. -/
structure RequestEffect where
  finalToken : Option String
  redirectedToLogin : Bool
  outcome : RequestOutcome
  fetchesSent : Nat
  url : String
deriving DecidableEq

/-- `ApiClient.request` (src/src/lib/api.ts): one fetch; on 401 clear the
token, redirect to `/login` and throw `Error('Unauthorized')`; on other
non-2xx throw `Error(error.message || 'API Error: <status>')`; otherwise
parse JSON. `status` is the HTTP status of the (single) response and
`errMsg` the optional `message` field of the parsed error body. -/
def requestStep (st : ClientState) (endpoint : String) (status : Nat)
    (errMsg : Option String) : RequestEffect :=
  if status == 401 then
    { finalToken := none, redirectedToLogin := true,
      outcome := .thrownUnauthorized, fetchesSent := 1,
      url := apiBaseUrl ++ endpoint }
  else if respOk status then
    { finalToken := st.token, redirectedToLogin := false,
      outcome := .success, fetchesSent := 1,
      url := apiBaseUrl ++ endpoint }
  else
    { finalToken := st.token, redirectedToLogin := false,
      outcome := .thrownApi
        (errMessageOrDefault errMsg ("API Error: " ++ toString status)),
      fetchesSent := 1, url := apiBaseUrl ++ endpoint }

/-- `ApiClient.uploadFile` (src/src/lib/api.ts): the multipart upload has its
own fetch but the identical 401 branch; 202 is the queued-acceptance success
shape; other non-2xx throws `Error(error.message || 'Upload failed: <status>')`. -/
def uploadFileStep (st : ClientState) (status : Nat)
    (errMsg : Option String) : RequestEffect :=
  if status == 401 then
    { finalToken := none, redirectedToLogin := true,
      outcome := .thrownUnauthorized, fetchesSent := 1,
      url := apiBaseUrl ++ "/admin/uploads" }
  else if status == 202 then
    { finalToken := st.token, redirectedToLogin := false,
      outcome := .success, fetchesSent := 1,
      url := apiBaseUrl ++ "/admin/uploads" }
  else if respOk status then
    { finalToken := st.token, redirectedToLogin := false,
      outcome := .success, fetchesSent := 1,
      url := apiBaseUrl ++ "/admin/uploads" }
  else
    { finalToken := st.token, redirectedToLogin := false,
      outcome := .thrownApi
        (errMessageOrDefault errMsg ("Upload failed: " ++ toString status)),
      fetchesSent := 1, url := apiBaseUrl ++ "/admin/uploads" }

/-! ## Upload submission (src/src/app/admin/uploads/page.tsx) -/

/-- The fields of a browser `File` object read by the uploads page:
`name`, `type` (MIME), `size` in bytes. -/
structure JsFile where
  name : String
  mime : String
  size : Nat
deriving DecidableEq

/-- Allowed extensions in `isValidFileType`. -/
def validExtensions : List String := [".csv", ".txt", ".xlsx", ".xls"]

/-- Allowed MIME types in `isValidFileType`. -/
def validMimeTypes : List String :=
  ["text/csv", "text/plain",
   "application/vnd.openxmlformats-officedocument.spreadsheetml.sheet",
   "application/vnd.ms-excel"]

/-- `isValidFileType` (src/src/app/admin/uploads/page.tsx): the lowercased
file name ends with an allowed extension, or the MIME type is allowed. -/
def isValidFileType (f : JsFile) : Bool :=
  (validExtensions.any (fun ext => jsEndsWith (jsToLower f.name) ext)) ||
  validMimeTypes.contains f.mime

/-- The 50MB size limit: `50 * 1024 * 1024` bytes. -/
def maxUploadSizeBytes : Nat := 50 * 1024 * 1024

/-- Observable effect of `handleSubmit`: the `uploadStatus` error message set
by local validation (if any) and the number of `api.uploadFile` network
calls issued. -/
structure SubmitEffect where
  statusMessage : Option String
  uploadCalls : Nat
deriving DecidableEq

/-- `handleSubmit` (src/src/app/admin/uploads/page.tsx), up to the point the
network request is issued: no file, invalid type, and oversize are each
rejected locally (zero network calls) with the literal message from the
source; otherwise exactly one `api.uploadFile` call is issued. -/
def handleSubmit (file : Option JsFile) : SubmitEffect :=
  match file with
  | none => ⟨some "Please select a file first", 0⟩
  | some f =>
    if !(isValidFileType f) then
      ⟨some "Invalid file type. Please upload a CSV, TXT or XLSX file.", 0⟩
    else if f.size > maxUploadSizeBytes then
      ⟨some "File too large. Maximum size is 50MB.", 0⟩
    else
      ⟨none, 1⟩

/-! ## Upload-status polling (`UploadProgress`, src/unnamed/part_004) -/

/-- Upload lifecycle status (`UploadStatus` in src/src/types/index.ts). -/
inductive UploadStatus
  | statusPending
  | statusProcessing
  | statusCompleted
  | statusFailed
deriving DecidableEq

/-- Result of one `api.getUpload` fetch as seen by `fetchStatus`: a status,
or a thrown error with its message. -/
inductive FetchResult
  | ok (s : UploadStatus)
  | fetchErr (msg : String)
deriving DecidableEq

/-- Callbacks the `UploadProgress` component can fire. -/
inductive CallbackEvent
  | onComplete
  | onError (msg : String)
deriving DecidableEq

/-- Terminal statuses: `completed` and `failed`. -/
def isTerminalStatus : UploadStatus → Bool
  | .statusCompleted => true
  | .statusFailed => true
  | _ => false

/-- The status value `fetchStatus` returns to the interval callback: the
fetched status, or `'failed'` when the fetch threw (the catch branch). -/
def fetchStatusReturn : FetchResult → UploadStatus
  | .ok s => s
  | .fetchErr _ => .statusFailed

/-- The callbacks one `fetchStatus` call fires: `onComplete` when the fetched
status is `completed`, `onError('Processing failed')` when it is `failed`,
`onError(message)` when the fetch threw, nothing otherwise. -/
def fetchStatusCallbacks : FetchResult → List CallbackEvent
  | .ok .statusCompleted => [.onComplete]
  | .ok .statusFailed => [.onError "Processing failed"]
  | .ok _ => []
  | .fetchErr m => [.onError m]

/-- The interval ticks of the `UploadProgress` effect, starting at tick `k`
with `fuel` remaining ticks before unmount: each tick runs `fetchStatus` and
clears the interval iff the returned status is terminal. `f j` is the backend
response to the fetch performed at tick `j` (tick `j` is at `2j` seconds). -/
def statusIntervalTicks (f : Nat → FetchResult) : Nat → Nat → List Nat
  | 0, _ => []
  | fuel + 1, k =>
    k :: (if isTerminalStatus (fetchStatusReturn (f k)) then []
          else statusIntervalTicks f fuel (k + 1))

/-- All `fetchStatus` invocations of one `UploadProgress` session: the mount
fetch (index 0, whose result is not inspected by the interval logic) followed
by the interval ticks starting at 1. -/
def statusPollFetches (f : Nat → FetchResult) (fuel : Nat) : List Nat :=
  0 :: statusIntervalTicks f fuel 1

/-- Callbacks fired by the fetches at the given indices, in order. -/
def callbacksAt (f : Nat → FetchResult) : List Nat → List CallbackEvent
  | [] => []
  | i :: rest => fetchStatusCallbacks (f i) ++ callbacksAt f rest

/-- All callbacks fired during one `UploadProgress` session. -/
def statusSessionCallbacks (f : Nat → FetchResult) (fuel : Nat) :
    List CallbackEvent :=
  callbacksAt f (statusPollFetches f fuel)

/-! ## Upload-detail initialization (`initPage`, src/src/app/admin/uploads/[id]/page.tsx) -/

/-- The API calls made by `initPage`, in source order. -/
inductive InitStep
  | getUpload
  | validateUpload
  | getUploadDebtors
  | getUploadValidationStats
  | getVopStats
  | getBillingStats
deriving DecidableEq

/-- Observable events of `initPage`: an API call, or the
`toast.error('Failed to load upload')` of the catch branch. -/
inductive InitEvent
  | call (s : InitStep)
  | toastLoadError
deriving DecidableEq

/-- `initPage` (src/src/app/admin/uploads/[id]/page.tsx) as an event trace.
`ok s` says whether the call `s` succeeds. The whole body is wrapped in one
try/catch surfacing `toast.error('Failed to load upload')`: a failure of
`getUpload` or `validateUpload` aborts before any later call; the two
`Promise.all` fetches are both started (in source order) and a failure of
either aborts before the VOP/billing fetches; `fetchVopStats` and
`fetchBillingStats` catch their own errors and never abort the sequence. -/
def initPage (ok : InitStep → Bool) : List InitEvent :=
  .call .getUpload ::
    (if ok .getUpload then
      .call .validateUpload ::
        (if ok .validateUpload then
          .call .getUploadDebtors :: .call .getUploadValidationStats ::
            (if ok .getUploadDebtors && ok .getUploadValidationStats then
              [.call .getVopStats, .call .getBillingStats]
            else [.toastLoadError])
        else [.toastLoadError])
    else [.toastLoadError])

/-! ## VOP stats, polling and the sync gate (src/src/app/admin/uploads/[id]/page.tsx) -/

/-- `VopStats` (src/src/types/index.ts): the aggregate polled per upload.
The `by_result` record is not read by the orchestration logic and is
omitted. -/
structure VopStats where
  total_eligible : Nat
  verified : Nat
  pending : Nat
deriving DecidableEq

/-- `vopPending` in the page body: `vopStats ? vopStats.pending : 0`. -/
def vopPendingOf : Option VopStats → Nat
  | some s => s.pending
  | none => 0

/-- `vopTotalEligible` in the page body: `vopStats ? vopStats.total_eligible : 0`. -/
def vopTotalEligibleOf : Option VopStats → Nat
  | some s => s.total_eligible
  | none => 0

/-- `canSync` (src/src/app/admin/uploads/[id]/page.tsx line 434):
`vopTotalEligible === 0 || vopPending === 0`. -/
def canSync (vop : Option VopStats) : Bool :=
  vopTotalEligibleOf vop == 0 || vopPendingOf vop == 0

/-- The remediation offered by the VOP-gate refusal toast: its action button
re-triggers `handleVerifyVop`. -/
inductive RemediationAction
  | verifyVopAction
deriving DecidableEq

/-- How an invocation of `handleSync` resolves before/at the network call. -/
inductive SyncOutcome
  | refusedVopGate (pendingCount : Nat) (remediation : RemediationAction)
  | cancelledByUser
  | syncRequested
deriving DecidableEq

/-- Observable effect of `handleSync` up to the `api.syncToGateway` call:
the resolution and the number of sync network requests issued. -/
structure SyncEffect where
  outcome : SyncOutcome
  syncRequests : Nat
deriving DecidableEq

/-- `handleSync` (src/src/app/admin/uploads/[id]/page.tsx lines 287–297):
if `vopPending > 0` the action is refused by a toast whose action button
re-triggers VOP verification, and the function returns before any network
request; otherwise the user confirmation dialog runs, and only on
confirmation is the single `api.syncToGateway` request issued (its response
handling — duplicate/queued/422 — happens after that request and is not
part of the local gate). -/
def handleSync (vop : Option VopStats) (confirmed : Bool) : SyncEffect :=
  if vopPendingOf vop > 0 then
    ⟨.refusedVopGate (vopPendingOf vop) .verifyVopAction, 0⟩
  else if !confirmed then
    ⟨.cancelledByUser, 0⟩
  else
    ⟨.syncRequested, 1⟩

/-- `setInterval` period of the VOP polling loop in `handleVerifyVop`: 5000ms. -/
def vopPollIntervalMs : Nat := 5000

/-- `setTimeout` budget after which `handleVerifyVop` clears the interval:
120000ms (2 minutes). -/
def vopPollTimeoutMs : Nat := 120000

/-- Fire times (ms after triggering) of a `setInterval` with the given period
that is cleared at `stopMs`: `periodMs, 2*periodMs, …` up to and including
`stopMs` when it divides evenly (the interval is registered before the
clearing timeout, so a fire coinciding with the timeout still runs). -/
def intervalFireTimesMs (periodMs stopMs : Nat) : List Nat :=
  (List.range (stopMs / periodMs)).map (fun k => periodMs * (k + 1))

/-- All fetch times of the VOP polling loop started by `handleVerifyVop`:
the interval fires, plus the final `fetchVopStats()` issued inside the
2-minute timeout itself. -/
def handleVerifyVopPollTimesMs : List Nat :=
  intervalFireTimesMs vopPollIntervalMs vopPollTimeoutMs ++ [vopPollTimeoutMs]

/-- Events of one VOP polling cycle at time `t`: the fetch, then either the
state update or — when the fetch threw — the caught-and-logged error
(`fetchVopStats` catches per cycle; an error never stops the loop). -/
inductive VopEvent
  | fetchVop (tMs : Nat)
  | setVopStats (tMs : Nat)
  | logVopError (tMs : Nat) (msg : String)
deriving DecidableEq

/-- One `fetchVopStats` cycle at time `t` with backend response `r`. -/
def vopCycle (t : Nat) (r : Except String VopStats) : List VopEvent :=
  .fetchVop t ::
    (match r with
     | .ok _ => [.setVopStats t]
     | .error m => [.logVopError t m])

/-- The cycles of the VOP polling loop over the given fire times, where `g i`
is the backend response to the `i`-th fetch. -/
def vopCycles (g : Nat → Except String VopStats) : List Nat → Nat → List VopEvent
  | [], _ => []
  | t :: ts, i => vopCycle t (g i) ++ vopCycles g ts (i + 1)

/-- Full event trace of the VOP polling loop started by `handleVerifyVop`. -/
def vopLoopEvents (g : Nat → Except String VopStats) : List VopEvent :=
  vopCycles g handleVerifyVopPollTimesMs 0

/-- Projection of a VOP event to the time of the fetch it performs. -/
def vopEventFetchTime : VopEvent → Option Nat
  | .fetchVop t => some t
  | _ => none

/-! ## Billing stats and processing polling (src/src/app/admin/uploads/[id]/page.tsx) -/

/-- The billing aggregate as read by the upload-detail page:
`is_processing` plus the per-status counts and amounts it renders. -/
structure BillingStats where
  is_processing : Bool
  total_attempts : Nat
  approved : Nat
  approved_amount : Int
  pending : Nat
  pending_amount : Int
  declined : Nat
  declined_amount : Int
  error : Nat
  error_amount : Int
deriving DecidableEq

/-- `setInterval` period of the billing polling loop: 5000ms. -/
def billingPollIntervalMs : Nat := 5000

/-- Stop condition of one billing polling cycle:
`data && !data.is_processing` — `fetchBillingStats` returns `null` when the
fetch threw (the error is caught and logged), and `null` does not stop the
loop. -/
def billingStops : Option BillingStats → Bool
  | some s => !s.is_processing
  | none => false

/-- Events of the billing polling loop: a `fetchBillingStats` poll at a tick,
or the one-shot `toast.success('Billing processing completed!')`. -/
inductive BillingEvent
  | pollBillingStats (k : Nat)
  | toastBillingCompleted
deriving DecidableEq

/-- The billing polling loop (the `useEffect` at lines 216–228), entered only
while `billingStats.is_processing` is true: every 5 seconds fetch the billing
stats; if the fetch returned data with `is_processing` false, clear the
interval and announce completion; a `null` result (caught fetch error) or a
still-processing result lets the loop run on. `g k` is the result of the
fetch at tick `k` (tick `k` is at `5000·k` ms); `fuel` bounds the ticks
observed before unmount. -/
def billingLoop (g : Nat → Option BillingStats) : Nat → Nat → List BillingEvent
  | 0, _ => []
  | fuel + 1, k =>
    .pollBillingStats k ::
      (match g k with
       | some s =>
         if s.is_processing then billingLoop g fuel (k + 1)
         else [.toastBillingCompleted]
       | none => billingLoop g fuel (k + 1))

/-- The poll times (ms) of a billing event trace. -/
def billingPollTimesMs (l : List BillingEvent) : List Nat :=
  l.filterMap (fun e =>
    match e with
    | .pollBillingStats k => some (billingPollIntervalMs * k)
    | .toastBillingCompleted => none)

/-! ## Debtor display status (`getValidationDisplayStatus`) -/

/-- The fields of a billing attempt read by `getValidationDisplayStatus`. -/
structure BillingAttempt where
  status : String
deriving DecidableEq

/-- The fields of a `Debtor` read by `getValidationDisplayStatus`
(src/src/types/index.ts): `validation_status`, the optional
`validation_errors` array, and the optional `latest_billing` relation. -/
structure Debtor where
  validation_status : String
  validation_errors : Option (List String)
  latest_billing : Option BillingAttempt
deriving DecidableEq

/-- `getValidationDisplayStatus` (src/src/app/admin/uploads/[id]/page.tsx
lines 122–130): a chargeback on the latest billing attempt overrides
everything; otherwise an `encoding` validation error (case-insensitive
substring) displays as `'error'`; otherwise the debtor's own
`validation_status` is displayed. Optional chaining on missing
`latest_billing`/`validation_errors` is falsy. -/
def getValidationDisplayStatus (d : Debtor) : String :=
  if (match d.latest_billing with
      | some b => b.status == "chargebacked"
      | none => false) then "chargebacked"
  else if (match d.validation_errors with
           | some es => es.any (fun e => containsSubstring (jsToLower e) "encoding")
           | none => false) then "error"
  else d.validation_status

/-! ## Helper lemmas: upload-status polling -/

/-- A non-terminal `fetchStatus` result fires no callback. -/
theorem fetchStatusCallbacks_eq_nil (r : FetchResult)
    (h : isTerminalStatus (fetchStatusReturn r) = false) :
    fetchStatusCallbacks r = [] := by
  cases r with
  | ok s =>
    cases s <;>
      simp_all [fetchStatusReturn, isTerminalStatus, fetchStatusCallbacks]
  | fetchErr m => simp_all [fetchStatusReturn, isTerminalStatus]

/-- A terminal `fetchStatus` result fires exactly one callback. -/
theorem fetchStatusCallbacks_length_one (r : FetchResult)
    (h : isTerminalStatus (fetchStatusReturn r) = true) :
    (fetchStatusCallbacks r).length = 1 := by
  cases r with
  | ok s =>
    cases s <;>
      simp_all [fetchStatusReturn, isTerminalStatus, fetchStatusCallbacks]
  | fetchErr m => simp [fetchStatusCallbacks]

theorem callbacksAt_append (f : Nat → FetchResult) (l₁ l₂ : List Nat) :
    callbacksAt f (l₁ ++ l₂) = callbacksAt f l₁ ++ callbacksAt f l₂ := by
  induction l₁ with
  | nil => simp [callbacksAt]
  | cons i rest ih => simp [callbacksAt, ih]

theorem callbacksAt_eq_nil (f : Nat → FetchResult) (l : List Nat)
    (h : ∀ i ∈ l, fetchStatusCallbacks (f i) = []) :
    callbacksAt f l = [] := by
  induction l with
  | nil => rfl
  | cons i rest ih =>
    simp [callbacksAt, h i (by simp), ih (fun j hj => h j (by simp [hj]))]

/-- The interval ticks run exactly `s, s+1, …, k` when the first terminal
result (counting from tick `s`) arrives at tick `k` within the fuel bound. -/
theorem statusIntervalTicks_spec (f : Nat → FetchResult) :
    ∀ (fuel s k : Nat), s ≤ k → k < s + fuel →
    isTerminalStatus (fetchStatusReturn (f k)) = true →
    (∀ j, s ≤ j → j < k → isTerminalStatus (fetchStatusReturn (f j)) = false) →
    statusIntervalTicks f fuel s = List.range' s (k + 1 - s) := by
  intro fuel
  induction fuel with
  | zero => intro s k hsk hlt _ _; omega
  | succ fuel ih =>
    intro s k hsk hlt hterm hpre
    rcases Nat.eq_or_lt_of_le hsk with heq | hlt'
    · subst heq
      have h1 : s + 1 - s = 1 := by omega
      simp [statusIntervalTicks, hterm, h1, List.range']
    · have hfs : isTerminalStatus (fetchStatusReturn (f s)) = false :=
        hpre s le_rfl hlt'
      have hrec := ih (s + 1) k hlt' (by omega) hterm
        (fun j hj1 hj2 => hpre j (by omega) hj2)
      have h2 : k + 1 - s = (k + 1 - (s + 1)) + 1 := by omega
      simp [statusIntervalTicks, hfs, hrec, h2, List.range']

/-- Combined stopping behavior of an `UploadProgress` session whose first
terminal observation among the interval fetches happens at tick `k`:
the fetches performed are exactly `0..k` (for every mount horizon `fuel ≥ k`,
so no request ever follows tick `k`), and the session callbacks are exactly
those of the fetch at tick `k`. -/
theorem statusPoll_spec (f : Nat → FetchResult) (fuel k : Nat)
    (hk : 1 ≤ k) (hfuel : k ≤ fuel)
    (hterm : isTerminalStatus (fetchStatusReturn (f k)) = true)
    (hpre : ∀ j, j < k → isTerminalStatus (fetchStatusReturn (f j)) = false) :
    statusPollFetches f fuel = List.range (k + 1) ∧
    statusSessionCallbacks f fuel = fetchStatusCallbacks (f k) := by
  have hticks : statusIntervalTicks f fuel 1 = List.range' 1 (k + 1 - 1) :=
    statusIntervalTicks_spec f fuel 1 k hk (by omega) hterm
      (fun j _ hj2 => hpre j hj2)
  have h1 : k + 1 - 1 = k := by omega
  have hfetches : statusPollFetches f fuel = List.range (k + 1) := by
    rw [statusPollFetches, hticks, h1, List.range_eq_range']
    simp [List.range']
  refine ⟨hfetches, ?_⟩
  rw [statusSessionCallbacks, hfetches, List.range_succ, callbacksAt_append]
  have hnil : callbacksAt f (List.range k) = [] :=
    callbacksAt_eq_nil f _ (fun i hi =>
      fetchStatusCallbacks_eq_nil (f i) (hpre i (List.mem_range.mp hi)))
  rw [hnil]
  simp [callbacksAt]

/-! ## Helper lemmas: billing polling -/

/-- The billing polling loop runs exactly ticks `s..k` and announces once,
when the first stopping result (counting from tick `s`) arrives at tick `k`
within the fuel bound. -/
theorem billingLoop_spec (g : Nat → Option BillingStats) :
    ∀ (fuel s k : Nat), s ≤ k → k < s + fuel →
    billingStops (g k) = true →
    (∀ j, s ≤ j → j < k → billingStops (g j) = false) →
    billingLoop g fuel s =
      (List.range' s (k + 1 - s)).map .pollBillingStats ++
        [.toastBillingCompleted] := by
  intro fuel
  induction fuel with
  | zero => intro s k hsk hlt _ _; omega
  | succ fuel ih =>
    intro s k hsk hlt hstop hpre
    rcases Nat.eq_or_lt_of_le hsk with heq | hlt'
    · subst heq
      rcases hgs : g s with _ | st
      · rw [hgs] at hstop; simp [billingStops] at hstop
      · rw [hgs] at hstop
        have hproc : st.is_processing = false := by
          simpa [billingStops] using hstop
        have h1 : s + 1 - s = 1 := by omega
        simp [billingLoop, hgs, hproc, h1, List.range']
    · have hfs : billingStops (g s) = false := hpre s le_rfl hlt'
      have hrec := ih (s + 1) k hlt' (by omega) hstop
        (fun j hj1 hj2 => hpre j (by omega) hj2)
      have h2 : k + 1 - s = (k + 1 - (s + 1)) + 1 := by omega
      rcases hgs : g s with _ | st
      · simp [billingLoop, hgs, hrec, h2, List.range']
      · have hproc : st.is_processing = true := by
          rw [hgs] at hfs
          simpa [billingStops] using hfs
        simp [billingLoop, hgs, hproc, hrec, h2, List.range']

/-- While no poll result clears the flag, the billing loop polls at every
tick up to the mount horizon: it has no built-in maximum duration. -/
theorem billingLoop_unbounded (g : Nat → Option BillingStats)
    (h : ∀ j, billingStops (g j) = false) :
    ∀ (fuel s : Nat), (billingLoop g fuel s).length = fuel := by
  intro fuel
  induction fuel with
  | zero => intro s; rfl
  | succ fuel ih =>
    intro s
    rcases hgs : g s with _ | st
    · simp [billingLoop, hgs, ih]
    · have hproc : st.is_processing = true := by
        have := h s
        rw [hgs] at this
        simpa [billingStops] using this
      simp [billingLoop, hgs, hproc, ih]

/-- A run of nothing but caught fetch errors polls at every tick: a failed
cycle is tolerated and the loop retries on the next tick. -/
theorem billingLoop_allErrors :
    ∀ (fuel s : Nat), billingLoop (fun _ => none) fuel s =
      (List.range' s fuel).map .pollBillingStats := by
  intro fuel
  induction fuel with
  | zero => intro s; rfl
  | succ fuel ih => intro s; simp [billingLoop, ih, List.range']

theorem billingPollTimesMs_append (l₁ l₂ : List BillingEvent) :
    billingPollTimesMs (l₁ ++ l₂) =
      billingPollTimesMs l₁ ++ billingPollTimesMs l₂ := by
  simp [billingPollTimesMs, List.filterMap_append]

theorem billingPollTimesMs_map_poll (l : List Nat) :
    billingPollTimesMs (l.map .pollBillingStats) =
      l.map (fun j => billingPollIntervalMs * j) := by
  induction l with
  | nil => rfl
  | cons a l ih =>
    simp only [billingPollTimesMs] at ih ⊢
    simp [ih]

theorem billingPollTimesMs_toast :
    billingPollTimesMs [.toastBillingCompleted] = [] := rfl

/-! ## Helper lemmas: VOP polling -/

/-- Each VOP cycle performs exactly one fetch, at its scheduled time,
whatever the backend response was. -/
theorem vopCycle_fetchTimes (t : Nat) (r : Except String VopStats) :
    (vopCycle t r).filterMap vopEventFetchTime = [t] := by
  cases r <;> simp [vopCycle, vopEventFetchTime]

/-- The fetch times of the VOP polling loop are exactly the scheduled times,
independent of any per-cycle fetch outcome. -/
theorem vopCycles_fetchTimes (g : Nat → Except String VopStats) :
    ∀ (ts : List Nat) (i : Nat),
      (vopCycles g ts i).filterMap vopEventFetchTime = ts := by
  intro ts
  induction ts with
  | nil => intro i; rfl
  | cons t rest ih =>
    intro i
    simp [vopCycles, List.filterMap_append, vopCycle_fetchTimes, ih]

/-! ## Claim theorems -/

/-- Claim C1: whenever the VOP stats satisfy `total_eligible > 0` and
`pending > 0`, invoking `handleSync` is refused locally before any sync
network request is sent (zero `api.syncToGateway` calls), the refusal
carries the re-triggerable VOP verification action as remediation (the
session continues, it is not terminated), and the `canSync` gate agrees. -/
theorem c1_vop_gate_refuses_sync (s : VopStats) (confirmed : Bool)
    (h1 : 0 < s.total_eligible) (h2 : 0 < s.pending) :
    handleSync (some s) confirmed =
      ⟨.refusedVopGate s.pending .verifyVopAction, 0⟩ ∧
    canSync (some s) = false := by
  constructor
  · simp [handleSync, vopPendingOf, h2]
  · simp only [canSync, vopTotalEligibleOf, vopPendingOf,
      Bool.or_eq_false_iff, beq_eq_false_iff_ne]
    exact ⟨by omega, by omega⟩

/-- Witness for C1 at the concrete stats
`total_eligible = 1, verified = 0, pending = 2`. -/
theorem c1_vop_gate_witness :
    handleSync (some ⟨1, 0, 2⟩) true =
      ⟨.refusedVopGate 2 .verifyVopAction, 0⟩ ∧
    canSync (some ⟨1, 0, 2⟩) = false :=
  c1_vop_gate_refuses_sync ⟨1, 0, 2⟩ true (by decide) (by decide)

/-- Claim C2, counterexample: when the mount fetch (index 0) already
observes `completed`, the interval still performs a further status request
at its first tick, and the `onComplete` callback fires twice in the session
— contradicting "never issues a further status request" and "fires exactly
once per session". -/
theorem c2_poll_counterexample :
    statusPollFetches (fun _ => .ok .statusCompleted) 1 = [0, 1] ∧
    statusSessionCallbacks (fun _ => .ok .statusCompleted) 1 =
      [.onComplete, .onComplete] := by
  constructor <;> rfl

/-- Claim C2, amended: status is fetched once on mount (index 0, at time 0)
and then at 2-second ticks; the loop stops at the first interval fetch that
observes a terminal status and never issues a request after it (for every
mount horizon); when the mount fetch observes a non-terminal status the
completion/error callback fires exactly once, namely at that terminal
interval fetch. (The mount fetch itself does not stop the loop: if it
already observes a terminal status, one further request occurs and the
callback fires twice, per the counterexample.) -/
theorem c2_poll_amended (f : Nat → FetchResult) (fuel k : Nat)
    (hk : 1 ≤ k) (hfuel : k ≤ fuel)
    (hterm : isTerminalStatus (fetchStatusReturn (f k)) = true)
    (hpre : ∀ j, j < k → isTerminalStatus (fetchStatusReturn (f j)) = false) :
    statusPollFetches f fuel = List.range (k + 1) ∧
    statusSessionCallbacks f fuel = fetchStatusCallbacks (f k) ∧
    (statusSessionCallbacks f fuel).length = 1 := by
  obtain ⟨h1, h2⟩ := statusPoll_spec f fuel k hk hfuel hterm hpre
  exact ⟨h1, h2, by rw [h2]; exact fetchStatusCallbacks_length_one (f k) hterm⟩

/-- Witness for the amended C2: mount fetch sees `processing`, the first
interval tick sees `completed`; the session performs fetches 0 and 1 only. -/
theorem c2_poll_witness :
    statusPollFetches
      (fun j => if j == 0 then .ok .statusProcessing else .ok .statusCompleted)
      1 = List.range 2 :=
  (c2_poll_amended
    (fun j => if j == 0 then .ok .statusProcessing else .ok .statusCompleted)
    1 1 (le_refl 1) (le_refl 1) rfl
    (fun j hj => by
      have h0 : j = 0 := Nat.lt_one_iff.mp hj
      subst h0
      rfl)).1

/-- Claim C3: `initPage` runs fetch-upload, then validate-upload (awaited),
then the debtors and validation-stats fetches, then the VOP stats fetch (and
then billing stats); when every step succeeds the trace is exactly this
order. If validate-upload fails, the sequence aborts: no debtor or
validation-stats fetch occurs and the load-error toast is surfaced. -/
theorem c3_init_sequence :
    (∀ ok : InitStep → Bool,
      ok .getUpload = true → ok .validateUpload = true →
      ok .getUploadDebtors = true → ok .getUploadValidationStats = true →
      initPage ok =
        [.call .getUpload, .call .validateUpload, .call .getUploadDebtors,
         .call .getUploadValidationStats, .call .getVopStats,
         .call .getBillingStats]) ∧
    (∀ ok : InitStep → Bool,
      ok .getUpload = true → ok .validateUpload = false →
      initPage ok = [.call .getUpload, .call .validateUpload, .toastLoadError] ∧
      InitEvent.call .getUploadDebtors ∉ initPage ok ∧
      InitEvent.call .getUploadValidationStats ∉ initPage ok) := by
  constructor
  · intro ok h1 h2 h3 h4
    simp [initPage, h1, h2, h3, h4]
  · intro ok h1 h2
    have heq : initPage ok =
        [.call .getUpload, .call .validateUpload, .toastLoadError] := by
      simp [initPage, h1, h2]
    refine ⟨heq, ?_, ?_⟩ <;> rw [heq] <;> decide

/-- Witness for C3: the all-success trace and the validate-failure trace at
concrete outcome assignments. -/
theorem c3_init_witness :
    initPage (fun _ => true) =
      [.call .getUpload, .call .validateUpload, .call .getUploadDebtors,
       .call .getUploadValidationStats, .call .getVopStats,
       .call .getBillingStats] ∧
    initPage (fun s => !(s == .validateUpload)) =
      [.call .getUpload, .call .validateUpload, .toastLoadError] :=
  ⟨c3_init_sequence.1 (fun _ => true) rfl rfl rfl rfl,
   (c3_init_sequence.2 (fun s => !(s == .validateUpload)) rfl rfl).1⟩

/-- Claim C4: the VOP polling loop started by `handleVerifyVop` polls every
5 seconds, and every fetch of the loop — interval fires and the final fetch
inside the clearing timeout — happens at or before `T+120000ms`; the last
scheduled fetch is at exactly `T+120000ms` and none occurs after. -/
theorem c4_vop_poll_bounded :
    (∀ t ∈ handleVerifyVopPollTimesMs, t ≤ vopPollTimeoutMs) ∧
    handleVerifyVopPollTimesMs.getLast? = some vopPollTimeoutMs ∧
    intervalFireTimesMs vopPollIntervalMs vopPollTimeoutMs =
      (List.range 24).map (fun k => vopPollIntervalMs * (k + 1)) := by
  refine ⟨?_, ?_, ?_⟩ <;> decide

/-- Witness for C4 at the first scheduled poll time, 5000ms. -/
theorem c4_vop_poll_witness :
    5000 ∈ handleVerifyVopPollTimesMs ∧ 5000 ≤ vopPollTimeoutMs :=
  ⟨by decide, c4_vop_poll_bounded.1 5000 (by decide)⟩

/-- Claim C5: a submission whose file fails the type check or exceeds 50MB
is rejected locally by `handleSubmit` with the specific error message from
the source, and no upload network call is made. -/
theorem c5_local_file_validation (f : JsFile)
    (h : isValidFileType f = false ∨ maxUploadSizeBytes < f.size) :
    (handleSubmit (some f)).uploadCalls = 0 ∧
    ((handleSubmit (some f)).statusMessage =
        some "Invalid file type. Please upload a CSV, TXT or XLSX file." ∨
     (handleSubmit (some f)).statusMessage =
        some "File too large. Maximum size is 50MB.") := by
  rcases h with h | h
  · simp [handleSubmit, h]
  · cases hiv : isValidFileType f with
    | false => simp [handleSubmit, hiv]
    | true => simp [handleSubmit, hiv, h]

/-- Witness for C5: a 50MB+1-byte CSV file is rejected without a network
call. -/
theorem c5_local_file_witness :
    (handleSubmit (some ⟨"clients.csv", "text/csv", 52428801⟩)).uploadCalls
      = 0 ∧
    ((handleSubmit (some ⟨"clients.csv", "text/csv", 52428801⟩)).statusMessage
        = some "Invalid file type. Please upload a CSV, TXT or XLSX file." ∨
     (handleSubmit (some ⟨"clients.csv", "text/csv", 52428801⟩)).statusMessage
        = some "File too large. Maximum size is 50MB.") :=
  c5_local_file_validation ⟨"clients.csv", "text/csv", 52428801⟩
    (Or.inr (by decide))

/-- Claim C6: for every client state, endpoint and error body, a 401
response makes `ApiClient.request` clear the stored token, hard-redirect to
the login view and throw, after exactly one fetch (no retry); and
`ApiClient.uploadFile` — the multipart path — behaves identically, so the
interception is uniform across all endpoints. -/
theorem c6_unauthorized_interception (st : ClientState) (endpoint : String)
    (errMsg : Option String) :
    requestStep st endpoint 401 errMsg =
      { finalToken := none, redirectedToLogin := true,
        outcome := .thrownUnauthorized, fetchesSent := 1,
        url := apiBaseUrl ++ endpoint } ∧
    uploadFileStep st 401 errMsg =
      { finalToken := none, redirectedToLogin := true,
        outcome := .thrownUnauthorized, fetchesSent := 1,
        url := apiBaseUrl ++ "/admin/uploads" } :=
  ⟨rfl, rfl⟩

/-- Claim C7: entered while `is_processing` is true, the billing loop polls
every 5 seconds (ticks at `5000·j` ms); when the poll at tick `k` first
returns data with `is_processing` false the loop stops there and the
completion announcement fires exactly once; and for any result stream that
never clears the flag the loop polls at every tick of every horizon — it
has no maximum duration. -/
theorem c7_billing_poll (g : Nat → Option BillingStats) (fuel k : Nat)
    (hk : 1 ≤ k) (hfuel : k ≤ fuel)
    (hstop : billingStops (g k) = true)
    (hpre : ∀ j, 1 ≤ j → j < k → billingStops (g j) = false) :
    billingLoop g fuel 1 =
      (List.range' 1 k).map .pollBillingStats ++ [.toastBillingCompleted] ∧
    (billingLoop g fuel 1).count .toastBillingCompleted = 1 ∧
    billingPollTimesMs (billingLoop g fuel 1) =
      (List.range' 1 k).map (fun j => billingPollIntervalMs * j) ∧
    (∀ g' : Nat → Option BillingStats, (∀ j, billingStops (g' j) = false) →
      ∀ fuel' : Nat, (billingLoop g' fuel' 1).length = fuel') := by
  have h1 : k + 1 - 1 = k := by omega
  have hloop := billingLoop_spec g fuel 1 k hk (by omega) hstop hpre
  rw [h1] at hloop
  refine ⟨hloop, ?_, ?_, fun g' hg' fuel' => billingLoop_unbounded g' hg' fuel' 1⟩
  · rw [hloop, List.count_append]
    have hzero :
        ((List.range' 1 k).map BillingEvent.pollBillingStats).count
          BillingEvent.toastBillingCompleted = 0 :=
      List.count_eq_zero.mpr (by simp)
    rw [hzero]
    simp
  · rw [hloop, billingPollTimesMs_append, billingPollTimesMs_map_poll,
      billingPollTimesMs_toast]
    simp

/-- Witness for C7: the flag clears at tick 2. -/
theorem c7_billing_witness :
    billingLoop (fun j => some ⟨!(j == 2), 0, 0, 0, 0, 0, 0, 0, 0, 0⟩) 2 1 =
      (List.range' 1 2).map .pollBillingStats ++ [.toastBillingCompleted] :=
  (c7_billing_poll (fun j => some ⟨!(j == 2), 0, 0, 0, 0, 0, 0, 0, 0, 0⟩)
    2 2 (by decide) (by decide) rfl
    (fun j hj1 hj2 => by
      have h1 : j = 1 := by omega
      subst h1
      rfl)).1

/-- Claim C8: polling loops treat per-cycle fetch errors asymmetrically.
A fetch error at an interval tick of the upload-status loop is terminal:
the loop performs no request after that tick and the `onError` callback
fires with the error message. A fetch error in a billing cycle is caught
and tolerated: a run of nothing but errors polls at every tick with no
completion announcement. A fetch error in a VOP cycle is caught and logged:
the loop's fetch schedule is exactly the fixed times, whatever each cycle's
outcome. -/
theorem c8_poll_error_asymmetry :
    (∀ (f : Nat → FetchResult) (fuel k : Nat) (msg : String),
      1 ≤ k → k ≤ fuel → f k = .fetchErr msg →
      (∀ j, j < k → isTerminalStatus (fetchStatusReturn (f j)) = false) →
      statusPollFetches f fuel = List.range (k + 1) ∧
      statusSessionCallbacks f fuel = [.onError msg]) ∧
    (∀ fuel : Nat,
      billingLoop (fun _ => none) fuel 1 =
        (List.range' 1 fuel).map .pollBillingStats) ∧
    (∀ g : Nat → Except String VopStats,
      (vopLoopEvents g).filterMap vopEventFetchTime =
        handleVerifyVopPollTimesMs) := by
  refine ⟨?_, fun fuel => billingLoop_allErrors fuel 1,
    fun g => vopCycles_fetchTimes g handleVerifyVopPollTimesMs 0⟩
  intro f fuel k msg hk hfuel hf hpre
  have hterm : isTerminalStatus (fetchStatusReturn (f k)) = true := by
    rw [hf]; rfl
  obtain ⟨h1, h2⟩ := statusPoll_spec f fuel k hk hfuel hterm hpre
  refine ⟨h1, ?_⟩
  rw [h2, hf]
  rfl

/-- Witness for C8: the mount fetch sees `processing` and the first interval
tick's fetch throws; the loop stops at tick 1 with a single `onError`. -/
theorem c8_poll_error_witness :
    statusPollFetches
      (fun j => if j == 0 then .ok .statusProcessing else .fetchErr "boom")
      1 = List.range 2 ∧
    statusSessionCallbacks
      (fun j => if j == 0 then .ok .statusProcessing else .fetchErr "boom")
      1 = [.onError "boom"] :=
  c8_poll_error_asymmetry.1
    (fun j => if j == 0 then .ok .statusProcessing else .fetchErr "boom")
    1 1 "boom" (le_refl 1) (le_refl 1) rfl
    (fun j hj => by
      have h0 : j = 0 := Nat.lt_one_iff.mp hj
      subst h0
      rfl)

/-- Claim C9: for every rendered debtor row, a `chargebacked` latest billing
attempt overrides everything; otherwise a validation error mentioning
`encoding` (case-insensitively) displays as `error`; otherwise the debtor's
own `validation_status` is displayed. -/
theorem c9_display_status (d : Debtor) :
    ((∃ b, d.latest_billing = some b ∧ b.status = "chargebacked") →
      getValidationDisplayStatus d = "chargebacked") ∧
    ((∀ b, d.latest_billing = some b → b.status ≠ "chargebacked") →
      (∃ es e, d.validation_errors = some es ∧ e ∈ es ∧
        containsSubstring (jsToLower e) "encoding" = true) →
      getValidationDisplayStatus d = "error") ∧
    ((∀ b, d.latest_billing = some b → b.status ≠ "chargebacked") →
      (∀ es, d.validation_errors = some es →
        ∀ e ∈ es, containsSubstring (jsToLower e) "encoding" = false) →
      getValidationDisplayStatus d = d.validation_status) := by
  refine ⟨?_, ?_, ?_⟩
  · rintro ⟨b, hb, hs⟩
    simp [getValidationDisplayStatus, hb, hs]
  · rintro hnb ⟨es, e, hes, hmem, henc⟩
    cases hlb : d.latest_billing with
    | none =>
      simp only [getValidationDisplayStatus, hlb, hes]
      rw [if_neg (by simp)]
      rw [if_pos]
      simp only [List.any_eq_true]
      exact ⟨e, hmem, henc⟩
    | some b =>
      have hne := hnb b hlb
      simp only [getValidationDisplayStatus, hlb, hes]
      rw [if_neg (by simp [hne])]
      rw [if_pos]
      simp only [List.any_eq_true]
      exact ⟨e, hmem, henc⟩
  · intro hnb hall
    cases hlb : d.latest_billing with
    | none =>
      cases hes : d.validation_errors with
      | none => simp [getValidationDisplayStatus, hlb, hes]
      | some es =>
        simp only [getValidationDisplayStatus, hlb, hes]
        rw [if_neg (by simp)]
        rw [if_neg]
        simp only [List.any_eq_true, not_exists]
        intro e
        exact fun hmem => absurd hmem.2 (by simp [hall es hes e hmem.1])
    | some b =>
      have hne := hnb b hlb
      cases hes : d.validation_errors with
      | none => simp [getValidationDisplayStatus, hlb, hes, hne]
      | some es =>
        simp only [getValidationDisplayStatus, hlb, hes]
        rw [if_neg (by simp [hne])]
        rw [if_neg]
        simp only [List.any_eq_true, not_exists]
        intro e
        exact fun hmem => absurd hmem.2 (by simp [hall es hes e hmem.1])

/-- Witness for C9: a debtor with no billing attempt and one validation
error mentioning ENCODING displays as `error`. -/
theorem c9_display_witness :
    getValidationDisplayStatus
      ⟨"valid", some ["bad ENCODING detected"], none⟩ = "error" :=
  (c9_display_status ⟨"valid", some ["bad ENCODING detected"], none⟩).2.1
    (fun b hb => nomatch hb)
    ⟨["bad ENCODING detected"], "bad ENCODING detected", rfl, by decide,
      by decide⟩

/-- Claim C10: `buildQuery` omits every entry whose value is `undefined`,
`null` or the empty string; when no entries remain it returns the empty
string (no `?` in the URL); otherwise it returns `?` followed by the
remaining `key=value` pairs joined with `&`, each value URI-encoded. -/
theorem c10_build_query :
    (∀ (pre post : List (String × JVal)) (k : String) (v : JVal),
      jvalKeep v = false →
      buildQuery (some (pre ++ (k, v) :: post)) =
        buildQuery (some (pre ++ post))) ∧
    (∀ ps : List (String × JVal),
      ps.filter (fun kv => jvalKeep kv.2) = [] →
      buildQuery (some ps) = "") ∧
    (∀ ps : List (String × JVal),
      ps.filter (fun kv => jvalKeep kv.2) ≠ [] →
      buildQuery (some ps) = "?" ++ String.intercalate "&"
        ((ps.filter (fun kv => jvalKeep kv.2)).map
          (fun kv => kv.1 ++ "=" ++ encodeURIComponent (jvalString kv.2)))) := by
  refine ⟨?_, ?_, ?_⟩
  · intro pre post k v hv
    have hfilter : List.filter (fun kv => jvalKeep kv.2) (pre ++ (k, v) :: post)
        = List.filter (fun kv => jvalKeep kv.2) (pre ++ post) := by
      simp [List.filter_append, List.filter_cons, hv]
    simp only [buildQuery, hfilter]
  · intro ps h
    simp [buildQuery, h]
  · intro ps h
    have hlen : ¬ ((ps.filter (fun kv => jvalKeep kv.2)).map
        (fun kv => kv.1 ++ "=" ++ encodeURIComponent (jvalString kv.2))).length
          = 0 := by
      simpa [List.length_eq_zero] using h
    simp only [buildQuery]
    rw [if_pos hlen]

/-- Witness for C10: a `null`-valued entry is dropped from the query. -/
theorem c10_build_query_witness :
    buildQuery (some ([("page", JVal.jnum 2)] ++ ("search", JVal.jnull) :: []))
      = buildQuery (some ([("page", JVal.jnum 2)] ++ [])) :=
  c10_build_query.1 [("page", JVal.jnum 2)] [] "search" JVal.jnull rfl

end Tether
